import Mathlib

/-!
The message router and request handlers of lbry.tech's `server.js`.

A shallow embedding of the WebSocket message router of `server.js` and of the
handlers it dispatches to (`fetchMetadata`, `generateGitHubFeed`,
`newsletterSubscribe`, `updateGithubFeed`, `uploadImage`, `validateEmail`).

Handlers are pure functions from the request and the outcomes of the external
collaborators (daemon, image endpoint, subscription API, Redis, GitHub) to the
trace of effects they perform, in program order.
-/

namespace LbryTech

/-! ## JavaScript values -/

/-- A value produced by `JSON.parse`.  Numbers are restricted to integers: the
handlers only compare numbers with `1`, `2` and `409` and test them for zero.
The integers meant are the ones JavaScript holds exactly, of magnitude below
`2 ^ 53`. -/
inductive Json where
  | null
  | bool (b : Bool)
  | num (n : Int)
  | str (s : String)
  | arr (items : List Json)
  | obj (fields : List (String × Json))

/-- A JavaScript value as the handlers see it: `none` is `undefined`. -/
abbrev JsVal := Option Json

/-- The value `undefined`. -/
abbrev undefined : JsVal := none

mutual
/-- ECMAScript `ToString` on a parsed JSON value (`String(v)`, string
concatenation and template substitution).  Numbers print in decimal, as
JavaScript prints the integers it holds exactly; objects print as
`Object.prototype.toString` does.  Outside this domain JavaScript differs: it
rounds larger number literals to doubles and prints them in exponent form from
`10 ^ 21` on, and it throws a `TypeError` for an object that has an own
`toString` property. -/
def Json.toStr : Json → String
  | .null => "null"
  | .bool true => "true"
  | .bool false => "false"
  | .num n => toString n
  | .str s => s
  | .arr [] => ""
  | .arr (x :: rest) => (match x with | .null => "" | y => Json.toStr y) ++ Json.joinRest rest
  | .obj _ => "[object Object]"
termination_by structural j => j
/-- The tail of `Array.prototype.join(",")`: every further element is preceded
by a comma, `null` elements print as the empty string. -/
def Json.joinRest : List Json → String
  | [] => ""
  | x :: rest => "," ++ (match x with | .null => "" | y => Json.toStr y) ++ Json.joinRest rest
termination_by structural l => l
end

/-- ECMAScript `ToString` on a value that may be `undefined`. -/
def toStr : JsVal → String
  | none => "undefined"
  | some j => j.toStr

/-- ECMAScript `ToBoolean`: `undefined`, `null`, `false`, `0` and `""` are
falsy, every other value (arrays and objects included) is truthy. -/
def truthy : JsVal → Bool
  | none => false
  | some .null => false
  | some (.bool b) => b
  | some (.num n) => n != 0
  | some (.str s) => s != ""
  | some (.arr _) => true
  | some (.obj _) => true

/-- Lookup of an own property in the property list of an object. -/
def lookup (key : String) : List (String × Json) → JsVal
  | [] => none
  | (k, v) :: rest => if k = key then some v else lookup key rest

/-- Property access `v.key` on a value that is neither `null` nor `undefined`:
objects yield the property or `undefined`; the keys read by the handlers exist
on no primitive and on no array. -/
def prop (v : JsVal) (key : String) : JsVal :=
  match v with
  | some (.obj fields) => lookup key fields
  | _ => none

/-- Property access throws a `TypeError` on `null` and `undefined`. -/
def propThrows : JsVal → Bool
  | none => true
  | some .null => true
  | _ => false

/-- Strict equality `v === n` with a number literal. -/
def isNum (v : JsVal) (n : Int) : Bool :=
  match v with
  | some (.num m) => m == n
  | _ => false

/-- Strict equality `v === s` with a string literal. -/
def isStr (v : JsVal) (s : String) : Bool :=
  match v with
  | some (.str t) => t == s
  | _ => false

/-- The test `list.indexOf(v) < 0` for a list of string literals; `indexOf`
compares with strict equality. -/
def indexOfNegative (list : List String) (v : JsVal) : Bool :=
  match v with
  | some (.str s) => !(list.contains s)
  | _ => true

/-- The object `JSON.stringify` writes for an object literal: properties whose
value is `undefined` are left out. -/
def jsonStringify (literal : List (String × JsVal)) : Json :=
  .obj (literal.filterMap fun kv => kv.2.map fun v => (kv.1, v))

/-! ## Regular expressions over UTF-16 code units -/

/-- The UTF-16 code units of a character. -/
def utf16Units (c : Char) : List Nat :=
  if c.toNat < 0x10000 then [c.toNat]
  else [0xD800 + (c.toNat - 0x10000) / 0x400, 0xDC00 + (c.toNat - 0x10000) % 0x400]

/-- The UTF-16 code units of a string, the sequence a JavaScript `RegExp`
without the `u` flag runs over. -/
def utf16 (s : String) : List Nat :=
  s.toList.flatMap utf16Units

/-- Regular expressions: the fragment used by `validateEmail`. -/
inductive Re where
  | never
  | eps
  | chr (c : Nat)
  | noneOf (excluded : List Nat)
  | seq (a b : Re)
  | alt (a b : Re)
  | star (a : Re)

namespace Re

/-- One or more repetitions, `a+`. -/
def plus (a : Re) : Re := seq a (star a)

/-- Two or more repetitions, `a{2,}`. -/
def atLeastTwo (a : Re) : Re := seq a (seq a (star a))

/-- Whether the expression matches the empty input. -/
def nullable : Re → Bool
  | never => false
  | eps => true
  | chr _ => false
  | noneOf _ => false
  | seq a b => nullable a && nullable b
  | alt a b => nullable a || nullable b
  | star _ => true

/-- Brzozowski derivative with respect to one code unit. -/
def deriv (u : Nat) : Re → Re
  | never => never
  | eps => never
  | chr c => if c = u then eps else never
  | noneOf excluded => if excluded.contains u then never else eps
  | seq a b => if nullable a then alt (seq (deriv u a) b) (deriv u b) else seq (deriv u a) b
  | alt a b => alt (deriv u a) (deriv u b)
  | star a => seq (deriv u a) (star a)

/-- Whether the whole input matches (`^…$`). -/
def test (r : Re) : List Nat → Bool
  | [] => nullable r
  | u :: rest => test (deriv u r) rest

end Re

/-- The code units matched by `\s`. -/
def whitespace : List Nat :=
  [0x20, 0x09, 0x0A, 0x0B, 0x0C, 0x0D, 0xA0, 0x1680, 0x2000, 0x2001, 0x2002, 0x2003,
   0x2004, 0x2005, 0x2006, 0x2007, 0x2008, 0x2009, 0x200A, 0x2028, 0x2029, 0x202F,
   0x205F, 0x3000, 0xFEFF]

/-- The class `[^<>()[\].,;:\s@"]`. -/
def atom : Re :=
  .noneOf ([0x3C, 0x3E, 0x28, 0x29, 0x5B, 0x5D, 0x2E, 0x2C, 0x3B, 0x3A] ++ whitespace ++ [0x40, 0x22])

/-- The class `[^<>()[\\.,;:\s@"]` of the top-level label: it excludes the
backslash and, unlike `atom`, not the closing bracket. -/
def tldAtom : Re :=
  .noneOf ([0x3C, 0x3E, 0x28, 0x29, 0x5B, 0x5C, 0x2E, 0x2C, 0x3B, 0x3A] ++ whitespace ++ [0x40, 0x22])

/-- The class `.`: everything but the line terminators. -/
def anyChar : Re :=
  .noneOf [0x0A, 0x0D, 0x2028, 0x2029]

/-- The local part `([^<>()[\].,;:\s@"]+(\.[^<>()[\].,;:\s@"]+)*)|(".+")`. -/
def localPart : Re :=
  .alt (.seq (Re.plus atom) (.star (.seq (.chr 0x2E) (Re.plus atom))))
       (.seq (.chr 0x22) (.seq (Re.plus anyChar) (.chr 0x22)))

/-- The domain `([^<>()[\].,;:\s@"]+\.)+[^<>()[\\.,;:\s@"]{2,}`. -/
def domainPart : Re :=
  .seq (Re.plus (.seq (Re.plus atom) (.chr 0x2E))) (Re.atLeastTwo tldAtom)

/-- The pattern `re` of `validateEmail`.  The `i` flag changes nothing: the
pattern names no letter. -/
def emailRe : Re :=
  .seq localPart (.seq (.chr 0x40) domainPart)

/-- The function `validateEmail`: `re.test(String(email))`. -/
def validateEmail (email : JsVal) : Bool :=
  emailRe.test (utf16 (toStr email))

/-! ## Effects and collaborators -/

/-- The query object `body` that `fetchMetadata` builds for the daemon. -/
structure Body where
  access_token : JsVal
  method : JsVal
  uri : JsVal := undefined
  bid : Option ℚ := none
  description : JsVal := undefined
  file_path : JsVal := undefined
  language : JsVal := undefined
  license : JsVal := undefined
  name : JsVal := undefined
  nsfw : JsVal := undefined
  title : JsVal := undefined

/-- What a handler does to the outside world, in program order. -/
inductive Effect where
  /-- A call `socket.send(JSON.stringify(frame))`; the frame is kept as the
  JSON value the client parses. -/
  | send (frame : Json)
  /-- The `PUT` of `uploadImage` to `http://daemon.lbry.tech/images.php`. -/
  | put (imageSource : String)
  /-- A `request` with query string `qs` to `url`. -/
  | get (url : String) (qs : Body)
  /-- The `POST` of `newsletterSubscribe`. -/
  | post (url : String)
  /-- A call of `updateGithubFeed()`, which asks GitHub for the newest events. -/
  | refresh
  /-- A call of `logSlackError`. -/
  | logSlackError
  /-- A call of `log`. -/
  | log
  /-- An exception that leaves a callback uncaught. -/
  | uncaught

/-- The text of an HTTP response body: the empty string, a non-empty text that
`JSON.parse` rejects, or the text of the JSON value `v`. -/
inductive HttpBody where
  | empty
  | malformed
  | json (v : Json)

/-- The function `JSON.parse` on a response text; `none` is a `SyntaxError`. -/
def jsonParse : HttpBody → Option Json
  | .empty => none
  | .malformed => none
  | .json v => some v

/-- How `request(options, callback)` calls back: with an error (and no body),
or with the response body. -/
inductive Response where
  | error
  | body (b : HttpBody)

/-- The errors `request-promise-native` rejects with: a response with a
non-2xx status (its `statusCode`, and the response text as `error`), or a
failed request without a `statusCode`. -/
inductive Rejection where
  | statusCode (code : Int) (error : String)
  | requestError

/-- How the promise of the subscription `POST` settles. -/
inductive Subscription where
  | resolved (b : HttpBody)
  | rejected (welp : Rejection)

/-- The state of a promise once its request has called back. -/
inductive Settled where
  | resolved (v : Json)
  | rejected
  | pending

/-! ## The `events` sorted set -/

/-- One member of the sorted set with its score.  Redis keeps scores as IEEE
754 doubles; the scores written here are integers, so a score is the integer
its double denotes. -/
structure Entry where
  score : Int
  member : String

/-- The sorted set stored under `events`, in rank order: ascending score, ties
in ascending member order. -/
abbrev SortedSet := List Entry

/-- The rank order of Redis sorted sets: by score, members of equal score in
lexicographic order. -/
def Entry.before (a b : Entry) : Bool :=
  a.score < b.score || (a.score == b.score && a.member.toList < b.member.toList)

/-- Insertion at the rank the order gives the new entry. -/
def insertEntry (e : Entry) : SortedSet → SortedSet
  | [] => [e]
  | x :: rest => if e.before x then e :: x :: rest else x :: insertEntry e rest

/-- The command `ZRANK`: the rank of the member, `none` (`null`) if absent. -/
def zrank (s : SortedSet) (member : String) : Option Nat :=
  match s with
  | [] => none
  | x :: rest => if x.member = member then some 0 else (zrank rest member).map (· + 1)

/-- The command `ZADD`: a member already present is moved to its new score. -/
def zadd (s : SortedSet) (score : Int) (member : String) : SortedSet :=
  insertEntry ⟨score, member⟩ (s.filter fun x => x.member != member)

/-- The inclusive rank range a `start`/`stop` pair denotes in a set of `len`
members, after Redis has resolved negative indexes; `none` is the empty range. -/
def rankRange (len : Nat) (start stop : Int) : Option (Nat × Nat) :=
  let start := if start < 0 then (len : Int) + start else start
  let stop := if stop < 0 then (len : Int) + stop else stop
  let start := if start < 0 then 0 else start
  if start > stop || start ≥ (len : Int) then none
  else
    let stop := if stop ≥ (len : Int) then (len : Int) - 1 else stop
    some (start.toNat, stop.toNat)

/-- The command `ZREMRANGEBYRANK`. -/
def zremrangebyrank (s : SortedSet) (start stop : Int) : SortedSet :=
  match rankRange s.length start stop with
  | none => s
  | some (first, last) => s.take first ++ s.drop (last + 1)

/-- The command `ZREVRANGE`: the members from the highest rank down. -/
def zrevrange (s : SortedSet) (start stop : Int) : List String :=
  match rankRange s.length start stop with
  | none => []
  | some (first, last) => ((s.reverse.drop first).take (last + 1 - first)).map Entry.member

/-- An upstream event as `updateGithubFeed` uses it: `item.id` and the text
`JSON.stringify(item)`. -/
structure GithubEvent where
  id : Int
  eventString : String

/-- The score Redis stores for an id: `ZADD` reads its score argument as an
IEEE 754 double, which keeps 53 significant bits (round to nearest, ties to
even); `none` when the id is beyond the range of doubles, where Redis replies
with an error instead of writing. -/
def redisScore (id : Int) : Option Int :=
  let m := id.natAbs
  if m < 2 ^ 53 then some id
  else
    let shift := Nat.log2 m - 52
    let q := m / 2 ^ shift
    let r := m % 2 ^ shift
    let q := if 2 ^ (shift - 1) < r ∨ (r = 2 ^ (shift - 1) ∧ q % 2 = 1) then q + 1 else q
    if 2 ^ 1024 ≤ q * 2 ^ shift then none
    else some (if id < 0 then -((q * 2 ^ shift : Nat) : Int) else ((q * 2 ^ shift : Nat) : Int))

/-- The iteratee of `async.eachSeries`: `ZADD` with the score `item.id` unless
`ZRANK` finds the text; `none` when `ZADD` calls back with an error. -/
def storeEvent (s : SortedSet) (item : GithubEvent) : Option SortedSet :=
  if (zrank s item.eventString).isNone then
    (redisScore item.id).map fun score => zadd s score item.eventString
  else some s

/-- The series `async.eachSeries(data, …)`, one item after the other; an error
ends the series and the final callback runs on the store as it is. -/
def eachSeries (s : SortedSet) : List GithubEvent → SortedSet
  | [] => s
  | item :: rest =>
    match storeEvent s item with
    | some next => eachSeries next rest
    | none => s

/-- The function `updateGithubFeed` once GitHub has answered with `data`: the
series, then `ZREMRANGEBYRANK events 0 -51`. -/
def updateGithubFeed (s : SortedSet) (data : List GithubEvent) : SortedSet :=
  zremrangebyrank (eachSeries s data) 0 (-51)

/-- The store after a sequence of completed refreshes, starting empty. -/
def afterRefreshes (refreshes : List (List GithubEvent)) : SortedSet :=
  refreshes.foldl updateGithubFeed []

/-! ## The handlers -/

/-- Everything a message is handled against: the environment variables, the
outcome of each outbound call, the store, and the templates that come from
helpers and libraries outside `server.js`. -/
structure World where
  /-- The variable `process.env.LBRY_DAEMON_ACCESS_TOKEN`. -/
  LBRY_DAEMON_ACCESS_TOKEN : Option String
  /-- The variable `process.env.LBRY_DAEMON_IMAGES_PATH`, taken as configured. -/
  LBRY_DAEMON_IMAGES_PATH : String
  /-- Whether `process.env.REDISCLOUD_URL` is defined. -/
  REDISCLOUD_URL : Bool
  /-- Whether the process outlives an exception no handler catches (Node
  terminates unless an `uncaughtException` listener is installed). -/
  survivesUncaught : Bool
  /-- The outcome of the `PUT` of `uploadImage`. -/
  upload : Response
  /-- The outcome of the `request` to the daemon. -/
  daemon : Response
  /-- The outcome of the subscription `POST`. -/
  subscription : Subscription
  /-- Whether `ZREVRANGE` calls back with an error. -/
  redisError : Bool
  /-- The sorted set `events`. -/
  events : SortedSet
  /-- The value of the `html` template of `fetchMetadata` for a claim address
  and a daemon response (`choo-async/html` with `stringify-object`). -/
  successPanel : JsVal → Json → String
  /-- The feed item rendered for one stored text (`JSON.parse`, the `github`
  helpers and `relativeDate`); `none` when that throws. -/
  renderEvent : String → Option String
  /-- The value of the `dedent` template around the joined feed items. -/
  feedTemplate : String → String

/-- The list `allowedClaims`. -/
def allowedClaims : List String :=
  ["fortnite-top-stream-moments-nickatnyte", "hellolbry", "itsadisaster", "six", "unbubbled1-1"]

/-- The list `allowedMethods`. -/
def allowedMethods : List String :=
  ["publish", "resolve", "wallet_send"]

/-- The frame sent for a method outside `allowedMethods`. -/
def unallowedMethodFrame : Json :=
  jsonStringify [("details", some (.str "Unallowed resolve method for tutorial")),
    ("message", some (.str "notification")), ("type", some (.str "error"))]

/-- The frame sent for a claim outside `allowedClaims`. -/
def invalidClaimFrame : Json :=
  jsonStringify [("details", some (.str "Invalid claim ID for tutorial")),
    ("message", some (.str "notification")), ("type", some (.str "error"))]

/-- The frame sent by the `catch` of the publish branch. -/
def uploadFailedFrame : Json :=
  jsonStringify [("details", some (.str "Image upload failed")),
    ("message", some (.str "notification")), ("type", some (.str "error"))]

/-- The function `uploadImage`: the `PUT`, and how the returned promise
settles.  On an error the callback rejects and then throws in
`JSON.parse(undefined)`. -/
def uploadImage (w : World) (imageSource : String) : List Effect × Settled :=
  match w.upload with
  | .error => ([.put imageSource, .uncaught], if w.survivesUncaught then .rejected else .pending)
  | .body b =>
    match jsonParse b with
    | none => ([.put imageSource, .uncaught], .pending)
    | some v => ([.put imageSource], .resolved v)

/-- The `catch` handler of the publish branch. -/
def uploadCatch : List Effect :=
  [.send uploadFailedFrame, .logSlackError]

/-- The `request` the publish branch makes once the upload succeeded, and what
follows from its callback. -/
def publishRequest (w : World) (body : Body) : List Effect :=
  .get "http://daemon.lbry.tech/images.php" body ::
    match w.daemon with
    | .error => .uncaught :: (if w.survivesUncaught then uploadCatch else [])
    | .body b =>
      match jsonParse b with
      | none => [.uncaught]
      | some _ => []

/-- The `then` handler of the publish branch. -/
def afterUpload (w : World) (body : Body) (uploadResponse : Json) : List Effect :=
  if propThrows (some uploadResponse) then uploadCatch
  else if !isStr (prop (some uploadResponse) "status") "ok" then []
  else publishRequest w { body with file_path := prop (some uploadResponse) "filename" }

/-- The `request` of the common path and its callback. -/
def daemonRequest (w : World) (claimAddress : JsVal) (body : Body) : List Effect :=
  .get "http://daemon.lbry.tech" body ::
    match w.daemon with
    | .error => [.logSlackError]
    | .body b =>
      match jsonParse b with
      | none => [.uncaught]
      | some v =>
        if propThrows (some v) then [.uncaught]
        else if (prop (some v) "error").isSome then [.logSlackError]
        else [.send (jsonStringify [("html", some (.str (w.successPanel claimAddress v))),
                ("message", some (.str "updated html")), ("selector", some (.str "#step1-result"))])]

/-- The variable `dataDetails`: `""`, replaced by `data.data` at step 2. -/
def dataDetails (data : Json) : JsVal :=
  if isNum (prop (some data) "step") 2 then prop (some data) "data" else some (.str "")

/-- The publish branch of `fetchMetadata`: the upload, then its `then` and
`catch` handlers. -/
def publish (w : World) (body : Body) : List Effect :=
  let upload := uploadImage w (toStr body.file_path)
  upload.1 ++
    match upload.2 with
    | .resolved uploadResponse => afterUpload w body uploadResponse
    | .rejected => uploadCatch
    | .pending => []

/-- The function `fetchMetadata`. -/
def fetchMetadata (w : World) (data : Json) : List Effect :=
  let step := prop (some data) "step"
  if (isNum step 1 && !truthy (prop (some data) "claim")) || !truthy (prop (some data) "method") then []
  else if isNum step 2 && !truthy (prop (some data) "data") then []
  else
    let claimAddress := prop (some data) "claim"
    let resolveMethod := prop (some data) "method"
    if indexOfNegative allowedMethods resolveMethod then [.send unallowedMethodFrame]
    else if isNum step 1 && indexOfNegative allowedClaims claimAddress then [.send invalidClaimFrame]
    else
      let body : Body :=
        { access_token := w.LBRY_DAEMON_ACCESS_TOKEN.map Json.str
          method := resolveMethod
          uri := if isNum step 1 then claimAddress else undefined }
      if isStr resolveMethod "publish" then
        publish w
          { body with
            bid := some 0.001
            description := prop (dataDetails data) "description"
            file_path :=
              some (.str (w.LBRY_DAEMON_IMAGES_PATH ++ toStr (prop (dataDetails data) "file_path")))
            language := prop (dataDetails data) "language"
            license := prop (dataDetails data) "license"
            name := prop (dataDetails data) "name"
            nsfw := prop (dataDetails data) "nsfw"
            title := prop (dataDetails data) "title" }
      else daemonRequest w claimAddress body

/-- The function `generateGitHubFeed`, with the effects of its callback
`displayGitHubFeed`. -/
def generateGitHubFeed (w : World) (displayGitHubFeed : String → List Effect) : List Effect :=
  if !w.REDISCLOUD_URL then []
  else if w.redisError then []
  else
    match (zrevrange w.events 0 9).mapM w.renderEvent with
    | none => [.uncaught]
    | some renderedEvents =>
      .refresh :: displayGitHubFeed (w.feedTemplate (String.join renderedEvents))

/-- The frame of `newsletterSubscribe` with the given `html`. -/
def emailMessage (html : JsVal) : Json :=
  jsonStringify [("html", html), ("message", some (.str "updated html")),
    ("selector", some (.str "#emailMessage"))]

/-- The `catch` handler of `newsletterSubscribe`. -/
def subscribeCatch : Option Rejection → List Effect
  | some (.statusCode code _) =>
    if code = 409 then [.logSlackError, .send (emailMessage (some (.str "You have already subscribed!")))]
    else []
  | _ => []

/-- The `then` handler of `newsletterSubscribe`; an exception thrown in it goes
to the `catch` handler as an error without `statusCode`. -/
def subscribeThen (b : HttpBody) : List Effect :=
  match b with
  | .empty => [.logSlackError, .send (emailMessage (some (.str "Something is terribly wrong")))]
  | .malformed => subscribeCatch none
  | .json v =>
    if !truthy (some v) then
      [.logSlackError, .send (emailMessage (some (.str "Something is terribly wrong")))]
    else if !truthy (prop (some v) "success") then
      if (prop (some v) "error").isNone then subscribeCatch none
      else [.logSlackError, .send (emailMessage (prop (some v) "error"))]
    else [.send (emailMessage (some (.str "Thank you! Please confirm subscription in your inbox.")))]

/-- The function `newsletterSubscribe`. -/
def newsletterSubscribe (w : World) (data : Json) : List Effect :=
  let email := prop (some data) "email"
  if !validateEmail email then [.send (emailMessage (some (.str "Your email is invalid")))]
  else
    .post ("https://api.lbry.io/list/subscribe?email=" ++ toStr email) ::
      match w.subscription with
      | .resolved b => subscribeThen b
      | .rejected welp => subscribeCatch (some welp)

/-- The `message` listener of a socket; `data` is the value of
`JSON.parse(data)`, `none` when the text does not parse. -/
def onMessage (w : World) (data : Option Json) : List Effect :=
  match data with
  | none => [.uncaught]
  | some data =>
    if propThrows (some data) then [.uncaught]
    else if isStr (prop (some data) "message") "fetch metadata" then fetchMetadata w data
    else if isStr (prop (some data) "message") "landed on homepage" then
      generateGitHubFeed w fun result =>
        [.send (jsonStringify [("html", some (.str result)), ("message", some (.str "updated html")),
          ("selector", some (.str "#github-feed"))])]
    else if isStr (prop (some data) "message") "subscribe" then newsletterSubscribe w data
    else [.log]

/-! ## Observations on a trace -/

/-- The frames sent to the socket. -/
def sent : List Effect → List Json
  | [] => []
  | .send frame :: rest => frame :: sent rest
  | _ :: rest => sent rest

/-- The outbound calls: uploads, daemon requests and subscription posts. -/
def outbound : List Effect → List Effect
  | [] => []
  | .put src :: rest => .put src :: outbound rest
  | .get url qs :: rest => .get url qs :: outbound rest
  | .post url :: rest => .post url :: outbound rest
  | _ :: rest => outbound rest

/-- The daemon requests with their query objects. -/
def daemonCalls : List Effect → List (String × Body)
  | [] => []
  | .get url qs :: rest => (url, qs) :: daemonCalls rest
  | _ :: rest => daemonCalls rest

/-! ## Validation, envelopes and sample inputs -/

/-- A request passes validation when `fetchMetadata` gets past its two silent
returns and its two notifications. -/
def passesValidation (data : Json) : Bool :=
  let step := prop (some data) "step"
  !((isNum step 1 && !truthy (prop (some data) "claim")) || !truthy (prop (some data) "method"))
    && !(isNum step 2 && !truthy (prop (some data) "data"))
    && !indexOfNegative allowedMethods (prop (some data) "method")
    && !(isNum step 1 && indexOfNegative allowedClaims (prop (some data) "claim"))

/-- An outbound envelope: a JSON object whose `message` is `"notification"` or
`"updated html"` and which has exactly one of the keys `html` and `details`. -/
def Envelope (frame : Json) : Prop :=
  ∃ fields, frame = .obj fields ∧
    (lookup "message" fields = some (.str "notification") ∨
      lookup "message" fields = some (.str "updated html")) ∧
    ((lookup "html" fields).isSome = !(lookup "details" fields).isSome)

/-- A world in which every collaborator answers successfully. -/
def sampleWorld : World where
  LBRY_DAEMON_ACCESS_TOKEN := some "token"
  LBRY_DAEMON_IMAGES_PATH := "/images/"
  REDISCLOUD_URL := true
  survivesUncaught := false
  upload := .body (.json (.obj [("status", .str "ok"), ("filename", .str "f.png")]))
  daemon := .body (.json (.obj [("result", .str "done")]))
  subscription := .resolved (.json (.obj [("success", .bool true)]))
  redisError := false
  events := []
  successPanel := fun claimAddress _ => "Success! lbry://" ++ toStr claimAddress
  renderEvent := some
  feedTemplate := fun events => "<h3>GitHub</h3>" ++ events

/-- A step 1 request with a method outside the allow-list and no claim. -/
def requestWithoutClaim : Json :=
  .obj [("message", .str "fetch metadata"), ("step", .num 1), ("method", .str "get")]

/-- A step 1 request with an unknown claim and a method outside the allow-list. -/
def requestUnknownClaimAndMethod : Json :=
  .obj [("message", .str "fetch metadata"), ("step", .num 1), ("claim", .str "foo"),
    ("method", .str "get")]

/-- A step 1 request with an allowed claim and a method outside the allow-list. -/
def requestUnknownMethod : Json :=
  .obj [("message", .str "fetch metadata"), ("step", .num 1), ("claim", .str "hellolbry"),
    ("method", .str "get")]

/-- A step 1 request with an unknown claim and an allowed method. -/
def requestUnknownClaim : Json :=
  .obj [("message", .str "fetch metadata"), ("step", .num 1), ("claim", .str "foo"),
    ("method", .str "resolve")]

/-- A step 2 publish request. -/
def requestPublish : Json :=
  .obj [("message", .str "fetch metadata"), ("step", .num 2), ("method", .str "publish"),
    ("data", .obj [("description", .str "A cat"), ("file_path", .str "cat.png"),
      ("language", .str "en"), ("license", .str "Public Domain"), ("name", .str "cat"),
      ("nsfw", .bool false), ("title", .str "Cat")])]

/-- A subscribe request with a well-formed address. -/
def requestSubscribe : Json :=
  .obj [("message", .str "subscribe"), ("email", .str "a@b.com")]

/-- A subscribe request with a malformed address. -/
def requestSubscribeInvalid : Json :=
  .obj [("message", .str "subscribe"), ("email", .str "not-an-email")]

/-- Two upstream events with the same id and different content. -/
def sameIdEvents : List GithubEvent :=
  [⟨1, "\x7b\"id\":\"1\",\"type\":\"PushEvent\"\x7d"⟩,
   ⟨1, "\x7b\"id\":\"1\",\"type\":\"ForkEvent\"\x7d"⟩]

/-- The page of twenty upstream events with the ids `20 * page`, …,
`20 * page + 19`. -/
def samplePage (page : Nat) : List GithubEvent :=
  (List.range 20).map fun i => ⟨(20 * page + i : Nat), toString (20 * page + i)⟩

/-- Whether every input the expression matches contains the code unit `c`, by
the shape of the expression. -/
def Re.needs (c : Nat) : Re → Bool
  | .never => true
  | .eps => false
  | .chr d => d == c
  | .noneOf _ => false
  | .seq a b => needs c a || needs c b
  | .alt a b => needs c a && needs c b
  | .star _ => false

/-- Every frame a trace sends is an envelope. -/
def AllEnvelopes (trace : List Effect) : Prop :=
  ∀ frame ∈ sent trace, Envelope frame

/-- Entries in ascending score order. -/
def ScoreSorted (s : SortedSet) : Prop :=
  s.Pairwise fun a b => a.score ≤ b.score

/-- Every entry of the store was written for one of the given events: it holds
the text of the event under the score Redis stores for its id. -/
def WrittenFor (s : SortedSet) (events : List GithubEvent) : Prop :=
  ∀ e ∈ s, ∃ item ∈ events, redisScore item.id = some e.score ∧ e.member = item.eventString

/-- No two entries of the store carry the same event id: entries at different
ranks never hold the texts of two received events with equal ids. -/
def NoDuplicateIds (s : SortedSet) (received : List GithubEvent) : Prop :=
  s.Pairwise fun x y => ∀ a ∈ received, ∀ b ∈ received,
    x.member = a.eventString → y.member = b.eventString → a.id ≠ b.id

/-- The invariant of the store with respect to the events seen so far. -/
def StoreInvariant (s : SortedSet) (events : List GithubEvent) : Prop :=
  ScoreSorted s ∧ (s.map Entry.member).Nodup ∧ WrittenFor s events

/-! ## Lemmas on the validation guards -/

theorem indexOfNegative_of_not_mem (list : List String) (v : JsVal)
    (h : ∀ m ∈ list, v ≠ some (Json.str m)) : indexOfNegative list v = true := by
  unfold indexOfNegative
  split
  · next s =>
    simp only [Bool.not_eq_true', List.contains_eq_any_beq, List.any_eq_false, beq_iff_eq]
    intro m hm hsm
    exact h m hm (by rw [hsm])
  · rfl

theorem indexOfNegative_of_mem (list : List String) (m : String) (hm : m ∈ list) :
    indexOfNegative list (some (Json.str m)) = false := by
  simp [indexOfNegative, hm]

/-! ## C1: a method outside the allow-list -/

/-- C1, as stated, fails: the step 1 request `requestWithoutClaim` has the
method `"get"`, which is not allowed, and `fetchMetadata` sends no frame for it. -/
theorem C1_counterexample :
    (∀ m ∈ allowedMethods, prop (some requestWithoutClaim) "method" ≠ some (Json.str m)) ∧
    fetchMetadata sampleWorld requestWithoutClaim = [] := by
  refine ⟨?_, rfl⟩
  intro m hm
  simp only [allowedMethods, List.mem_cons, List.mem_singleton, List.not_mem_nil, or_false] at hm
  rcases hm with rfl | rfl | rfl <;> simp [prop, lookup, requestWithoutClaim]

/-- C1, amended: a fetch-metadata request that has its required fields (a
truthy `method`, a truthy `claim` at step 1, a truthy `data` at step 2) and
whose `method` is not one of publish, resolve, wallet_send makes
`fetchMetadata` send exactly the notification "Unallowed resolve method for
tutorial" and do nothing else, at any step. -/
theorem C1_unallowed_method (w : World) (data : Json)
    (hmethod : truthy (prop (some data) "method") = true)
    (hclaim : isNum (prop (some data) "step") 1 = true → truthy (prop (some data) "claim") = true)
    (hdata : isNum (prop (some data) "step") 2 = true → truthy (prop (some data) "data") = true)
    (hnot : ∀ m ∈ allowedMethods, prop (some data) "method" ≠ some (Json.str m)) :
    fetchMetadata w data =
      [Effect.send (.obj [("details", .str "Unallowed resolve method for tutorial"),
        ("message", .str "notification"), ("type", .str "error")])] := by
  have hneg := indexOfNegative_of_not_mem _ _ hnot
  unfold fetchMetadata
  simp only [hmethod, hneg, Bool.not_true, Bool.or_false, Bool.and_eq_true, Bool.not_eq_true',
    if_true]
  rw [if_neg, if_neg]
  · rfl
  · rintro ⟨h2, hd⟩
    rw [hdata h2] at hd
    exact Bool.noConfusion hd
  · rintro ⟨h1, hc⟩
    rw [hclaim h1] at hc
    exact Bool.noConfusion hc

/-- C1, amended, at the request `requestUnknownMethod`. -/
theorem C1_unallowed_method_witness :
    fetchMetadata sampleWorld requestUnknownMethod =
      [Effect.send (.obj [("details", .str "Unallowed resolve method for tutorial"),
        ("message", .str "notification"), ("type", .str "error")])] :=
  C1_unallowed_method sampleWorld requestUnknownMethod (by decide) (by decide) (by decide)
    (by
      intro m hm
      simp only [allowedMethods, List.mem_cons, List.mem_singleton, List.not_mem_nil, or_false] at hm
      rcases hm with rfl | rfl | rfl <;> simp [prop, lookup, requestUnknownMethod])

/-! ## C2: a claim outside the allow-list at step 1 -/

/-- C2, as stated, fails: the step 1 request `requestUnknownClaimAndMethod` has
the claim `"foo"`, which is not allow-listed, and `fetchMetadata` answers it
with the method notification, not with "Invalid claim ID for tutorial". -/
theorem C2_counterexample :
    prop (some requestUnknownClaimAndMethod) "step" = some (Json.num 1) ∧
    (∀ c ∈ allowedClaims, prop (some requestUnknownClaimAndMethod) "claim" ≠ some (Json.str c)) ∧
    fetchMetadata sampleWorld requestUnknownClaimAndMethod =
      [Effect.send (.obj [("details", .str "Unallowed resolve method for tutorial"),
        ("message", .str "notification"), ("type", .str "error")])] := by
  refine ⟨rfl, ?_, rfl⟩
  intro c hc
  simp only [allowedClaims, List.mem_cons, List.mem_singleton, List.not_mem_nil, or_false] at hc
  rcases hc with rfl | rfl | rfl | rfl | rfl <;> simp [prop, lookup, requestUnknownClaimAndMethod]

/-- C2, amended: a fetch-metadata request with step = 1, a truthy `claim` that
is not one of the five allow-listed identifiers and a `method` that is one of
publish, resolve, wallet_send makes `fetchMetadata` send exactly the
notification "Invalid claim ID for tutorial" and do nothing else. -/
theorem C2_invalid_claim (w : World) (data : Json)
    (hstep : prop (some data) "step" = some (Json.num 1))
    (hclaim : truthy (prop (some data) "claim") = true)
    (hmethod : ∃ m ∈ allowedMethods, prop (some data) "method" = some (Json.str m))
    (hnot : ∀ c ∈ allowedClaims, prop (some data) "claim" ≠ some (Json.str c)) :
    fetchMetadata w data =
      [Effect.send (.obj [("details", .str "Invalid claim ID for tutorial"),
        ("message", .str "notification"), ("type", .str "error")])] := by
  have hneg := indexOfNegative_of_not_mem _ _ hnot
  obtain ⟨m, hm, hmeq⟩ := hmethod
  have hallowed := indexOfNegative_of_mem _ m hm
  have htruthy : truthy (some (Json.str m)) = true := by
    simp only [allowedMethods, List.mem_cons, List.mem_singleton, List.not_mem_nil, or_false] at hm
    rcases hm with rfl | rfl | rfl <;> decide
  unfold fetchMetadata
  simp only [hstep, hclaim, hmeq, htruthy, hneg, hallowed, isNum]
  rfl

/-- C2, amended, at the request `requestUnknownClaim`. -/
theorem C2_invalid_claim_witness :
    fetchMetadata sampleWorld requestUnknownClaim =
      [Effect.send (.obj [("details", .str "Invalid claim ID for tutorial"),
        ("message", .str "notification"), ("type", .str "error")])] :=
  C2_invalid_claim sampleWorld requestUnknownClaim rfl (by decide)
    ⟨"resolve", by decide, rfl⟩
    (by
      intro c hc
      simp only [allowedClaims, List.mem_cons, List.mem_singleton, List.not_mem_nil, or_false] at hc
      rcases hc with rfl | rfl | rfl | rfl | rfl <;> simp [prop, lookup, requestUnknownClaim])

/-! ## C3: missing required fields -/

/-- C3: a fetch-metadata request that lacks a required field for its step
(step 1 with a falsy `claim`, for instance absent or empty; any step with a
falsy `method`; step 2 with a falsy `data`) makes `fetchMetadata` do nothing:
no frame is sent and no outbound call is issued. -/
theorem C3_missing_fields (w : World) (data : Json)
    (hmissing :
      (prop (some data) "step" = some (Json.num 1) ∧ truthy (prop (some data) "claim") = false) ∨
      truthy (prop (some data) "method") = false ∨
      (prop (some data) "step" = some (Json.num 2) ∧ truthy (prop (some data) "data") = false)) :
    fetchMetadata w data = [] := by
  unfold fetchMetadata
  rcases hmissing with ⟨hs, hc⟩ | hm | ⟨hs, hd⟩
  · simp [hs, hc, isNum]
  · simp [hm]
  · simp only [hs, hd, isNum]
    split <;> rfl

/-- C3 at the request `requestWithoutClaim`, a step 1 request with no claim. -/
theorem C3_missing_fields_witness :
    fetchMetadata sampleWorld requestWithoutClaim = [] :=
  C3_missing_fields sampleWorld requestWithoutClaim (Or.inl ⟨rfl, rfl⟩)

/-! ## Lemmas on the pattern of `validateEmail` -/

theorem Re.nullable_of_needs (c : Nat) (r : Re) (h : Re.needs c r = true) :
    Re.nullable r = false := by
  induction r with
  | never => rfl
  | eps => simp [Re.needs] at h
  | chr d => rfl
  | noneOf excluded => rfl
  | seq a b iha ihb =>
    simp only [Re.needs, Bool.or_eq_true] at h
    rcases h with h | h
    · simp [Re.nullable, iha h]
    · simp [Re.nullable, ihb h]
  | alt a b iha ihb =>
    simp only [Re.needs, Bool.and_eq_true] at h
    simp [Re.nullable, iha h.1, ihb h.2]
  | star a _ => simp [Re.needs] at h

theorem Re.needs_deriv (c u : Nat) (hu : u ≠ c) (r : Re) (h : Re.needs c r = true) :
    Re.needs c (Re.deriv u r) = true := by
  induction r with
  | never => rfl
  | eps => simp [Re.needs] at h
  | chr d =>
    simp only [Re.needs, beq_iff_eq] at h
    subst h
    simp [Re.deriv, Ne.symm hu, Re.needs]
  | noneOf excluded => simp [Re.needs] at h
  | seq a b iha ihb =>
    simp only [Re.needs, Bool.or_eq_true] at h
    rcases h with h | h
    · simp [Re.deriv, Re.nullable_of_needs c a h, Re.needs, iha h]
    · by_cases hn : Re.nullable a = true
      · simp [Re.deriv, hn, Re.needs, h, ihb h]
      · simp [Re.deriv, hn, Re.needs, h]
  | alt a b iha ihb =>
    simp only [Re.needs, Bool.and_eq_true] at h
    simp [Re.deriv, Re.needs, iha h.1, ihb h.2]
  | star a _ => simp [Re.needs] at h

theorem Re.test_eq_false_of_needs (c : Nat) (input : List Nat) (hc : c ∉ input) (r : Re)
    (h : Re.needs c r = true) : Re.test r input = false := by
  induction input generalizing r with
  | nil => exact Re.nullable_of_needs c r h
  | cons u rest ih =>
    simp only [List.mem_cons, not_or] at hc
    exact ih hc.2 _ (Re.needs_deriv c u (Ne.symm hc.1) r h)

theorem not_mem_utf16Units (c : Char) (hc : c ≠ '@') : 0x40 ∉ utf16Units c := by
  unfold utf16Units
  split
  · simp only [List.mem_singleton]
    intro h
    apply hc
    apply Char.ext
    apply UInt32.ext
    exact h.symm
  · simp only [List.mem_cons, List.mem_singleton, List.not_mem_nil, or_false, not_or]
    constructor <;> omega

theorem not_mem_utf16 (s : String) (hs : '@' ∉ s.toList) : 0x40 ∉ utf16 s := by
  unfold utf16
  simp only [List.mem_flatMap, not_exists, not_and]
  intro c hc
  exact not_mem_utf16Units c (fun h => hs (h ▸ hc))

/-! ## C4 and C5: the newsletter handler -/

/-- C4: for a subscribe request whose email passes `validateEmail`,
`newsletterSubscribe` sends exactly one HtmlUpdate for `#emailMessage`: a JSON
body with `success` true gives "Thank you! Please confirm subscription in your
inbox."; a JSON body with `success` false and `error` x gives x; a rejection
with status code 409 gives "You have already subscribed!". -/
theorem C4_subscribe_outcomes (w : World) (data : Json) (fields : List (String × Json))
    (x : Json) (error : String)
    (hvalid : validateEmail (prop (some data) "email") = true) :
    (lookup "success" fields = some (.bool true) →
      sent (newsletterSubscribe { w with subscription := .resolved (.json (.obj fields)) } data) =
        [.obj [("html", .str "Thank you! Please confirm subscription in your inbox."),
          ("message", .str "updated html"), ("selector", .str "#emailMessage")]]) ∧
    (lookup "success" fields = some (.bool false) → lookup "error" fields = some x →
      sent (newsletterSubscribe { w with subscription := .resolved (.json (.obj fields)) } data) =
        [.obj [("html", x), ("message", .str "updated html"),
          ("selector", .str "#emailMessage")]]) ∧
    sent (newsletterSubscribe { w with subscription := .rejected (.statusCode 409 error) } data) =
      [.obj [("html", .str "You have already subscribed!"), ("message", .str "updated html"),
        ("selector", .str "#emailMessage")]] := by
  refine ⟨?_, ?_, ?_⟩
  · intro hs
    have hsuccess : prop (some (Json.obj fields)) "success" = some (.bool true) := hs
    simp [newsletterSubscribe, hvalid, subscribeThen, truthy, hsuccess, sent, emailMessage,
      jsonStringify]
  · intro hs he
    have hsuccess : prop (some (Json.obj fields)) "success" = some (.bool false) := hs
    have herror : prop (some (Json.obj fields)) "error" = some x := he
    simp [newsletterSubscribe, hvalid, subscribeThen, truthy, hsuccess, herror, sent,
      emailMessage, jsonStringify]
  · simp [newsletterSubscribe, hvalid, subscribeCatch, sent, emailMessage, jsonStringify]

/-- C4 at the request `requestSubscribe`, for the bodies `{success: true}` and
`{success: false, error: "x"}` and for a 409 rejection. -/
theorem C4_subscribe_outcomes_witness :
    sent (newsletterSubscribe
        { sampleWorld with subscription := .resolved (.json (.obj [("success", .bool true)])) }
        requestSubscribe) =
      [.obj [("html", .str "Thank you! Please confirm subscription in your inbox."),
        ("message", .str "updated html"), ("selector", .str "#emailMessage")]] ∧
    sent (newsletterSubscribe
        { sampleWorld with
          subscription := .resolved (.json (.obj [("success", .bool false), ("error", .str "x")])) }
        requestSubscribe) =
      [.obj [("html", .str "x"), ("message", .str "updated html"),
        ("selector", .str "#emailMessage")]] ∧
    sent (newsletterSubscribe
        { sampleWorld with subscription := .rejected (.statusCode 409 "Conflict") }
        requestSubscribe) =
      [.obj [("html", .str "You have already subscribed!"), ("message", .str "updated html"),
        ("selector", .str "#emailMessage")]] :=
  ⟨(C4_subscribe_outcomes sampleWorld requestSubscribe [("success", .bool true)] .null ""
      (by decide)).1 rfl,
    (C4_subscribe_outcomes sampleWorld requestSubscribe
      [("success", .bool false), ("error", .str "x")] (.str "x") "" (by decide)).2.1 rfl rfl,
    (C4_subscribe_outcomes sampleWorld requestSubscribe [] .null "Conflict" (by decide)).2.2⟩

/-- C5: for a subscribe request whose email `validateEmail` rejects,
`newsletterSubscribe` sends exactly the HtmlUpdate "Your email is invalid" for
`#emailMessage` and makes no outbound call; `validateEmail` accepts
`"a@b.com"`, rejects `"not-an-email"`, and rejects every string without `@`. -/
theorem C5_invalid_email (w : World) (data : Json) (s : String)
    (hrejected : validateEmail (prop (some data) "email") = false)
    (hs : '@' ∉ s.toList) :
    newsletterSubscribe w data =
      [Effect.send (.obj [("html", .str "Your email is invalid"),
        ("message", .str "updated html"), ("selector", .str "#emailMessage")])] ∧
    validateEmail (some (.str "a@b.com")) = true ∧
    validateEmail (some (.str "not-an-email")) = false ∧
    validateEmail (some (.str s)) = false := by
  refine ⟨?_, by decide, by decide, ?_⟩
  · simp [newsletterSubscribe, hrejected, emailMessage, jsonStringify]
  · exact Re.test_eq_false_of_needs 0x40 _ (not_mem_utf16 s hs) emailRe (by decide)

/-- C5 at the request `requestSubscribeInvalid` and the string `"lbry.tech"`. -/
theorem C5_invalid_email_witness :
    newsletterSubscribe sampleWorld requestSubscribeInvalid =
      [Effect.send (.obj [("html", .str "Your email is invalid"),
        ("message", .str "updated html"), ("selector", .str "#emailMessage")])] ∧
    validateEmail (some (.str "lbry.tech")) = false :=
  have h := C5_invalid_email sampleWorld requestSubscribeInvalid "lbry.tech" (by decide) (by decide)
  ⟨h.1, h.2.2.2⟩

/-! ## Lemmas on the sorted set -/

theorem insertEntry_perm (e : Entry) (s : SortedSet) : (insertEntry e s).Perm (e :: s) := by
  induction s with
  | nil => exact List.Perm.refl _
  | cons x rest ih =>
    unfold insertEntry
    split
    · exact List.Perm.refl _
    · exact (List.Perm.cons x ih).trans (List.Perm.swap e x rest)

theorem insertEntry_sorted (e : Entry) (s : SortedSet) (h : ScoreSorted s) :
    ScoreSorted (insertEntry e s) := by
  induction s with
  | nil => simp [insertEntry, ScoreSorted]
  | cons x rest ih =>
    unfold ScoreSorted at h ih ⊢
    rw [List.pairwise_cons] at h
    unfold insertEntry
    split
    · next hbefore =>
      have hle : e.score ≤ x.score := by
        simp only [Entry.before, Bool.or_eq_true, decide_eq_true_eq, Bool.and_eq_true,
          beq_iff_eq] at hbefore
        rcases hbefore with hlt | ⟨heq, _⟩
        · exact le_of_lt hlt
        · exact le_of_eq heq
      refine List.pairwise_cons.2 ⟨?_, List.pairwise_cons.2 h⟩
      intro y hy
      rcases List.mem_cons.1 hy with rfl | hy
      · exact hle
      · exact le_trans hle (h.1 y hy)
    · next hbefore =>
      have hle : x.score ≤ e.score := by
        simp only [Entry.before, Bool.or_eq_true, decide_eq_true_eq, Bool.and_eq_true,
          beq_iff_eq, not_or] at hbefore
        exact not_lt.1 hbefore.1
      refine List.pairwise_cons.2 ⟨?_, ih h.2⟩
      intro y hy
      rcases List.mem_cons.1 ((insertEntry_perm e rest).mem_iff.1 hy) with rfl | hy
      · exact hle
      · exact h.1 y hy

theorem zadd_invariant (s : SortedSet) (events : List GithubEvent) (item : GithubEvent)
    (score : Int) (hscore : redisScore item.id = some score)
    (hitem : item ∈ events) (h : StoreInvariant s events) :
    StoreInvariant (zadd s score item.eventString) events := by
  obtain ⟨hsorted, hnodup, hwritten⟩ := h
  have hsub : (s.filter fun x => x.member != item.eventString).Sublist s := List.filter_sublist s
  refine ⟨insertEntry_sorted _ _ (List.Pairwise.sublist hsub hsorted), ?_, ?_⟩
  · unfold zadd
    rw [((insertEntry_perm _ _).map Entry.member).nodup_iff, List.map_cons, List.nodup_cons]
    refine ⟨?_, List.Nodup.sublist (hsub.map Entry.member) hnodup⟩
    simp only [List.mem_map, List.mem_filter, bne_iff_ne, ne_eq, not_exists, not_and]
    intro x hx heq
    exact hx.2 heq
  · intro e he
    rcases List.mem_cons.1 ((insertEntry_perm _ _).mem_iff.1 he) with rfl | he
    · exact ⟨item, hitem, hscore, rfl⟩
    · exact hwritten e (hsub.subset he)

theorem storeEvent_invariant (s next : SortedSet) (events : List GithubEvent) (item : GithubEvent)
    (hnext : storeEvent s item = some next)
    (hitem : item ∈ events) (h : StoreInvariant s events) : StoreInvariant next events := by
  unfold storeEvent at hnext
  split at hnext
  · cases hscore : redisScore item.id with
    | none => simp [hscore] at hnext
    | some score =>
      simp only [hscore, Option.map_some', Option.some.injEq] at hnext
      rw [← hnext]
      exact zadd_invariant s events item score hscore hitem h
  · simp only [Option.some.injEq] at hnext
    rw [← hnext]
    exact h

theorem eachSeries_invariant (events data : List GithubEvent) (hdata : ∀ item ∈ data, item ∈ events)
    (s : SortedSet) (h : StoreInvariant s events) : StoreInvariant (eachSeries s data) events := by
  induction data generalizing s with
  | nil => exact h
  | cons item rest ih =>
    unfold eachSeries
    cases hnext : storeEvent s item with
    | none => exact h
    | some next =>
      exact ih (fun i hi => hdata i (List.mem_cons_of_mem _ hi)) next
        (storeEvent_invariant s next events item hnext (hdata item (List.mem_cons_self _ _)) h)

theorem rankRange_keep_fifty (len : Nat) :
    rankRange len 0 (-51) = if len ≤ 50 then none else some (0, len - 51) := by
  unfold rankRange
  by_cases hlen : len ≤ 50
  · have hcond : ((0 : Int) > (len : Int) + (-51) || decide ((0 : Int) ≥ (len : Int))) = true := by
      simp only [Bool.or_eq_true, decide_eq_true_eq]
      left
      omega
    simp only [show ((-51 : Int) < 0) from by decide, show ¬ ((0 : Int) < 0) from by decide,
      if_true, if_false, hlen]
    rw [if_pos hcond]
  · have hcond : ¬ ((0 : Int) > (len : Int) + (-51) || decide ((0 : Int) ≥ (len : Int))) = true := by
      simp only [Bool.or_eq_true, decide_eq_true_eq, not_or]
      constructor <;> omega
    have hstop : ¬ ((len : Int) + (-51) ≥ (len : Int)) := by omega
    have hnat : ((len : Int) + (-51)).toNat = len - 51 := by omega
    simp only [show ((-51 : Int) < 0) from by decide, show ¬ ((0 : Int) < 0) from by decide,
      if_true, if_false, hlen]
    rw [if_neg hcond, if_neg hstop, hnat]
    rfl

theorem zremrangebyrank_keep_fifty (s : SortedSet) :
    zremrangebyrank s 0 (-51) = s.drop (s.length - 50) := by
  unfold zremrangebyrank
  rw [rankRange_keep_fifty]
  by_cases hlen : s.length ≤ 50
  · have h0 : s.length - 50 = 0 := by omega
    simp [hlen, h0]
  · have h1 : s.length - 51 + 1 = s.length - 50 := by omega
    simp [hlen, h1]

theorem updateGithubFeed_invariant (events data : List GithubEvent)
    (hdata : ∀ item ∈ data, item ∈ events) (s : SortedSet) (h : StoreInvariant s events) :
    StoreInvariant (updateGithubFeed s data) events := by
  obtain ⟨hsorted, hnodup, hwritten⟩ := eachSeries_invariant events data hdata s h
  unfold updateGithubFeed
  rw [zremrangebyrank_keep_fifty]
  have hsub := List.drop_sublist ((eachSeries s data).length - 50) (eachSeries s data)
  exact ⟨List.Pairwise.sublist hsub hsorted, List.Nodup.sublist (hsub.map Entry.member) hnodup,
    fun e he => hwritten e (hsub.subset he)⟩

theorem afterRefreshes_append (refreshes : List (List GithubEvent)) (data : List GithubEvent) :
    afterRefreshes (refreshes ++ [data]) = updateGithubFeed (afterRefreshes refreshes) data := by
  simp [afterRefreshes, List.foldl_append]

theorem afterRefreshes_invariant (events : List GithubEvent) (refreshes : List (List GithubEvent))
    (h : ∀ data ∈ refreshes, ∀ item ∈ data, item ∈ events) :
    StoreInvariant (afterRefreshes refreshes) events := by
  induction refreshes using List.reverseRecOn with
  | nil => exact ⟨List.Pairwise.nil, List.nodup_nil, fun e he => absurd he (List.not_mem_nil e)⟩
  | append_singleton init data ih =>
    rw [afterRefreshes_append]
    exact updateGithubFeed_invariant events data
      (fun item hi => h data (List.mem_append_right _ (List.mem_singleton_self data)) item hi) _
      (ih fun d hd item hi => h d (List.mem_append_left _ hd) item hi)

/-! ## C8 and C9: the feed store -/

/-- C8, as stated, fails: one refresh that receives two events with the id 1
and different content leaves both texts in the store, under the same score: two
entries carry the event id 1. -/
theorem C8_counterexample :
    (afterRefreshes [sameIdEvents]).map Entry.member =
      ["\x7b\"id\":\"1\",\"type\":\"ForkEvent\"\x7d", "\x7b\"id\":\"1\",\"type\":\"PushEvent\"\x7d"] ∧
    (afterRefreshes [sameIdEvents]).map Entry.score = [1, 1] ∧
    ¬ NoDuplicateIds (afterRefreshes [sameIdEvents]) [sameIdEvents].flatten := by
  refine ⟨by decide, by decide, ?_⟩
  unfold NoDuplicateIds
  decide

/-- C8, amended: starting from an empty store, after every sequence of
completed refreshes no two entries of the store hold the same serialized
event, and every entry holds the text of a received event; when upstream
events with the same id always have the same serialization, no two entries
carry the same event id. -/
theorem C8_no_duplicate_ids (refreshes : List (List GithubEvent)) :
    ((afterRefreshes refreshes).map Entry.member).Nodup ∧
    (∀ e ∈ afterRefreshes refreshes, ∃ item ∈ refreshes.flatten, e.member = item.eventString) ∧
    ((∀ data ∈ refreshes, ∀ a ∈ data, ∀ data' ∈ refreshes, ∀ b ∈ data',
        a.id = b.id → a.eventString = b.eventString) →
      NoDuplicateIds (afterRefreshes refreshes) refreshes.flatten) := by
  obtain ⟨_, hnodup, hwritten⟩ := afterRefreshes_invariant refreshes.flatten refreshes
    (fun data hd item hi => List.mem_flatten.2 ⟨data, hd, hi⟩)
  refine ⟨hnodup, ?_, ?_⟩
  · intro e he
    obtain ⟨item, hitem, _, hmember⟩ := hwritten e he
    exact ⟨item, hitem, hmember⟩
  · intro hids
    unfold NoDuplicateIds
    refine List.Pairwise.imp ?_ (List.pairwise_map.1 hnodup)
    intro x y hxy a ha b hb hxa hyb hab
    obtain ⟨da, hda, haa⟩ := List.mem_flatten.1 ha
    obtain ⟨db, hdb, hbb⟩ := List.mem_flatten.1 hb
    apply hxy
    rw [hxa, hyb]
    exact hids da hda a haa db hdb b hbb hab

/-- C8, amended, at three refreshes that receive the pages 0, 1 and 0 again:
ids and texts determine each other there. -/
theorem C8_no_duplicate_ids_witness :
    ((afterRefreshes [samplePage 0, samplePage 1, samplePage 0]).map Entry.member).Nodup ∧
    NoDuplicateIds (afterRefreshes [samplePage 0, samplePage 1, samplePage 0])
      [samplePage 0, samplePage 1, samplePage 0].flatten :=
  have h := C8_no_duplicate_ids [samplePage 0, samplePage 1, samplePage 0]
  ⟨h.1, h.2.2 (by
    intro data hd a ha data' hd' b hb hab
    have key : ∀ d ∈ [samplePage 0, samplePage 1, samplePage 0], ∀ e ∈ d,
        e.eventString = toString e.id := by
      intro d hdm e he
      simp only [List.mem_cons, List.mem_singleton, List.not_mem_nil, or_false] at hdm
      rcases hdm with rfl | rfl | rfl <;>
      · simp only [samplePage, List.mem_map, List.mem_range] at he
        obtain ⟨i, _, rfl⟩ := he
        rfl
    rw [key data hd a ha, key data' hd' b hb, hab])⟩

/-- C9: starting from an empty store, after every sequence of completed
refreshes and one more refresh with any upstream events the store holds at
most 50 entries; the trim keeps the last 50 entries in rank order, exactly 50
when more were present, and every removed entry scores at most as high as every
kept entry. -/
theorem C9_at_most_fifty (refreshes : List (List GithubEvent)) (data : List GithubEvent) :
    (afterRefreshes (refreshes ++ [data])).length ≤ 50 ∧
    afterRefreshes (refreshes ++ [data]) =
      (eachSeries (afterRefreshes refreshes) data).drop
        ((eachSeries (afterRefreshes refreshes) data).length - 50) ∧
    (50 < (eachSeries (afterRefreshes refreshes) data).length →
      (afterRefreshes (refreshes ++ [data])).length = 50) ∧
    (∀ removed ∈ (eachSeries (afterRefreshes refreshes) data).take
        ((eachSeries (afterRefreshes refreshes) data).length - 50),
      ∀ kept ∈ afterRefreshes (refreshes ++ [data]), removed.score ≤ kept.score) := by
  have htrim : afterRefreshes (refreshes ++ [data]) =
      (eachSeries (afterRefreshes refreshes) data).drop
        ((eachSeries (afterRefreshes refreshes) data).length - 50) := by
    rw [afterRefreshes_append, updateGithubFeed, zremrangebyrank_keep_fifty]
  have hsorted : ScoreSorted (eachSeries (afterRefreshes refreshes) data) :=
    (eachSeries_invariant (refreshes.flatten ++ data) data
      (fun item hi => List.mem_append_right _ hi) _
      (afterRefreshes_invariant (refreshes.flatten ++ data) refreshes
        (fun d hd item hi => List.mem_append_left _ (List.mem_flatten.2 ⟨d, hd, hi⟩)))).1
  refine ⟨?_, htrim, ?_, ?_⟩
  · rw [htrim, List.length_drop]
    omega
  · intro hlen
    rw [htrim, List.length_drop]
    omega
  · intro removed hremoved kept hkept
    rw [htrim] at hkept
    unfold ScoreSorted at hsorted
    rw [← List.take_append_drop ((eachSeries (afterRefreshes refreshes) data).length - 50)
      (eachSeries (afterRefreshes refreshes) data), List.pairwise_append] at hsorted
    exact hsorted.2.2 removed hremoved kept hkept

set_option maxRecDepth 1000000 in
/-- C9 at three refreshes that receive the pages 0, 1 and 2: sixty events were
written, fifty are kept. -/
theorem C9_at_most_fifty_witness :
    50 < (eachSeries (afterRefreshes [samplePage 0, samplePage 1]) (samplePage 2)).length ∧
    (afterRefreshes ([samplePage 0, samplePage 1] ++ [samplePage 2])).length = 50 :=
  ⟨by decide, (C9_at_most_fifty [samplePage 0, samplePage 1] (samplePage 2)).2.2.1 (by decide)⟩

/-! ## C6 and C7: the publish branch -/

theorem isStr_eq_true (v : JsVal) (s : String) : isStr v s = true ↔ v = some (Json.str s) := by
  unfold isStr
  split
  · next t => simp
  · next h =>
    simp only [Bool.false_eq_true, false_iff]
    intro hv
    exact h s hv

theorem fetchMetadata_publish (w : World) (data : Json)
    (hvalid : passesValidation data = true)
    (hpublish : prop (some data) "method" = some (Json.str "publish")) :
    ∃ body : Body, fetchMetadata w data = publish w body ∧
      body.method = some (Json.str "publish") ∧
      body.file_path =
        some (Json.str (w.LBRY_DAEMON_IMAGES_PATH ++ toStr (prop (dataDetails data) "file_path"))) := by
  simp only [passesValidation, Bool.and_eq_true, Bool.not_eq_true', Bool.or_eq_false_iff] at hvalid
  obtain ⟨⟨⟨⟨h1, h2⟩, h3⟩, h4⟩, h5⟩ := hvalid
  refine ⟨
    { access_token := w.LBRY_DAEMON_ACCESS_TOKEN.map Json.str
      method := prop (some data) "method"
      uri := if isNum (prop (some data) "step") 1 then prop (some data) "claim" else undefined
      bid := some 0.001
      description := prop (dataDetails data) "description"
      file_path :=
        some (.str (w.LBRY_DAEMON_IMAGES_PATH ++ toStr (prop (dataDetails data) "file_path")))
      language := prop (dataDetails data) "language"
      license := prop (dataDetails data) "license"
      name := prop (dataDetails data) "name"
      nsfw := prop (dataDetails data) "nsfw"
      title := prop (dataDetails data) "title" }, ?_, ?_, rfl⟩
  · rw [hpublish] at h2 h4
    unfold fetchMetadata
    simp only [h1, h2, h3, h4, h5, Bool.or_false, Bool.false_eq_true, if_false, hpublish,
      (isStr_eq_true _ _).2 rfl, if_true]
  · exact hpublish

/-- C6: for a fetch-metadata request with method "publish" that passes
validation, a request to the daemon is issued only when the upload response
has status "ok"; its query then has `file_path` equal to the `filename` of the
upload response, while the upload itself was given the path built from the
image directory and the client's `file_path`.  With any other upload outcome
no daemon request is issued. -/
theorem C6_publish_after_upload (w : World) (data : Json)
    (hvalid : passesValidation data = true)
    (hpublish : prop (some data) "method" = some (Json.str "publish")) :
    (∀ uploadResponse, w.upload = .body (.json uploadResponse) →
      prop (some uploadResponse) "status" = some (Json.str "ok") →
      ∃ body : Body,
        outbound (fetchMetadata w data) =
          [.put (w.LBRY_DAEMON_IMAGES_PATH ++ toStr (prop (dataDetails data) "file_path")),
            .get "http://daemon.lbry.tech/images.php" body] ∧
        body.method = some (Json.str "publish") ∧
        body.file_path = prop (some uploadResponse) "filename") ∧
    ((¬ ∃ uploadResponse, w.upload = .body (.json uploadResponse) ∧
        prop (some uploadResponse) "status" = some (Json.str "ok")) →
      daemonCalls (fetchMetadata w data) = []) := by
  obtain ⟨body, hfetch, hmethod, hpath⟩ := fetchMetadata_publish w data hvalid hpublish
  rw [hfetch]
  constructor
  · intro uploadResponse hupload hstatus
    refine ⟨{ body with file_path := prop (some uploadResponse) "filename" }, ?_, hmethod, rfl⟩
    have hthrows : propThrows (some uploadResponse) = false := by
      cases uploadResponse <;> first | rfl | simp [prop] at hstatus
    have hok := (isStr_eq_true _ _).2 hstatus
    simp only [publish, uploadImage, hupload, jsonParse, afterUpload, hthrows, hok, hpath, toStr,
      Json.toStr, Bool.false_eq_true, if_false, Bool.not_true, List.cons_append, List.nil_append,
      outbound, publishRequest]
    cases w.daemon with
    | error => cases w.survivesUncaught <;> rfl
    | body b => cases b <;> rfl
  · intro hnone
    unfold publish uploadImage
    cases hupload : w.upload with
    | error => cases w.survivesUncaught <;> rfl
    | body b =>
      cases b with
      | empty => rfl
      | malformed => rfl
      | json uploadResponse =>
        simp only [jsonParse, afterUpload, List.cons_append, List.nil_append, daemonCalls]
        split
        · rfl
        · split
          · rfl
          · next hstatus =>
            simp only [Bool.not_eq_true', Bool.not_eq_false] at hstatus
            exact absurd ⟨uploadResponse, hupload, (isStr_eq_true _ _).1 hstatus⟩ hnone

/-- C6 at the request `requestPublish` and the upload response
`{status: "ok", filename: "f.png"}`: the query carries `"f.png"`, the upload
carried `"/images/cat.png"`. -/
theorem C6_publish_after_upload_witness :
    ∃ body : Body,
      outbound (fetchMetadata sampleWorld requestPublish) =
        [.put "/images/cat.png", .get "http://daemon.lbry.tech/images.php" body] ∧
      body.method = some (Json.str "publish") ∧
      body.file_path = some (Json.str "f.png") :=
  (C6_publish_after_upload sampleWorld requestPublish (by decide) rfl).1
    (.obj [("status", .str "ok"), ("filename", .str "f.png")]) rfl rfl

theorem fetchMetadata_not_publish (w : World) (data : Json)
    (hvalid : passesValidation data = true)
    (hmethod : prop (some data) "method" ≠ some (Json.str "publish")) :
    ∃ body : Body, fetchMetadata w data = daemonRequest w (prop (some data) "claim") body := by
  simp only [passesValidation, Bool.and_eq_true, Bool.not_eq_true', Bool.or_eq_false_iff] at hvalid
  obtain ⟨⟨⟨⟨h1, h2⟩, h3⟩, h4⟩, h5⟩ := hvalid
  have hnot : isStr (prop (some data) "method") "publish" = false := by
    cases hstr : isStr (prop (some data) "method") "publish" with
    | false => rfl
    | true => exact absurd ((isStr_eq_true _ _).1 hstr) hmethod
  refine ⟨
    { access_token := w.LBRY_DAEMON_ACCESS_TOKEN.map Json.str
      method := prop (some data) "method"
      uri := if isNum (prop (some data) "step") 1 then prop (some data) "claim" else undefined },
    ?_⟩
  unfold fetchMetadata
  simp only [h1, h2, h3, h4, h5, hnot, Bool.or_false, Bool.false_eq_true, if_false]

/-- On the common path (resolve, wallet_send) the daemon's answer decides the
response: a JSON body without `error` is shown in one HtmlUpdate for
`#step1-result`; a transport error or a body with `error` gives no frame. -/
theorem fetchMetadata_daemon_response (w : World) (data : Json)
    (hvalid : passesValidation data = true)
    (hmethod : prop (some data) "method" ≠ some (Json.str "publish")) :
    (w.daemon = .error → sent (fetchMetadata w data) = []) ∧
    (∀ v, w.daemon = .body (.json v) → (prop (some v) "error").isSome = true →
      sent (fetchMetadata w data) = []) ∧
    (∀ v, w.daemon = .body (.json v) → propThrows (some v) = false →
      prop (some v) "error" = none →
      sent (fetchMetadata w data) =
        [.obj [("html", .str (w.successPanel (prop (some data) "claim") v)),
          ("message", .str "updated html"), ("selector", .str "#step1-result")]]) := by
  obtain ⟨body, hfetch⟩ := fetchMetadata_not_publish w data hvalid hmethod
  rw [hfetch]
  refine ⟨?_, ?_, ?_⟩
  · intro hd
    simp [daemonRequest, hd, sent]
  · intro v hd herror
    have hthrows : propThrows (some v) = false := by
      cases v <;> first | rfl | simp [prop] at herror
    simp [daemonRequest, hd, jsonParse, hthrows, herror, sent]
  · intro v hd hthrows herror
    simp [daemonRequest, hd, jsonParse, hthrows, herror, sent, jsonStringify]

/-- C7 fails on the publish branch: the request `requestPublish` passes
validation, the upload succeeds and the daemon answers `{result: "done"}`, a
JSON body without `error`; `fetchMetadata` sends no frame, whereas the same
answer to a resolve request is shown in an HtmlUpdate. -/
theorem C7_publish_sends_nothing :
    passesValidation requestPublish = true ∧
    sampleWorld.daemon = .body (.json (.obj [("result", .str "done")])) ∧
    sent (fetchMetadata sampleWorld requestPublish) = [] ∧
    sent (fetchMetadata sampleWorld
        (.obj [("message", .str "fetch metadata"), ("step", .num 1), ("claim", .str "hellolbry"),
          ("method", .str "resolve")])) =
      [.obj [("html", .str "Success! lbry://hellolbry"), ("message", .str "updated html"),
        ("selector", .str "#step1-result")]] :=
  ⟨by decide, rfl, rfl, rfl⟩

/-! ## C10: every frame is an envelope -/

theorem mem_sent (frame : Json) (trace : List Effect) :
    frame ∈ sent trace ↔ Effect.send frame ∈ trace := by
  induction trace with
  | nil => simp [sent]
  | cons e rest ih => cases e <;> simp [sent, ih]

theorem envelope_notification (details : String) :
    Envelope (jsonStringify [("details", some (.str details)),
      ("message", some (.str "notification")), ("type", some (.str "error"))]) :=
  ⟨_, rfl, Or.inl rfl, rfl⟩

theorem envelope_html (html : Json) (selector : String) :
    Envelope (jsonStringify [("html", some html), ("message", some (.str "updated html")),
      ("selector", some (.str selector))]) :=
  ⟨_, rfl, Or.inr rfl, rfl⟩

theorem mem_uploadCatch (frame : Json) (h : Effect.send frame ∈ uploadCatch) :
    frame = uploadFailedFrame := by
  simpa [uploadCatch] using h

theorem publish_sends (w : World) (body : Body) (frame : Json)
    (h : Effect.send frame ∈ publish w body) : frame = uploadFailedFrame := by
  unfold publish uploadImage at h
  cases hu : w.upload with
  | error =>
    rw [hu] at h
    cases hs : w.survivesUncaught
    · simp [hs] at h
    · exact mem_uploadCatch frame (by simpa [hs] using h)
  | body b =>
    rw [hu] at h
    cases b with
    | empty => simp [jsonParse] at h
    | malformed => simp [jsonParse] at h
    | json v =>
      simp only [jsonParse, afterUpload, publishRequest, List.cons_append, List.nil_append,
        List.mem_cons, reduceCtorEq, false_or] at h
      split at h
      · exact mem_uploadCatch frame h
      · split at h
        · simp at h
        · cases hd : w.daemon with
          | error =>
            rw [hd] at h
            cases hs : w.survivesUncaught
            · simp [hs] at h
            · exact mem_uploadCatch frame (by simpa [hs] using h)
          | body b' =>
            rw [hd] at h
            cases b' <;> simp at h

theorem daemonRequest_envelopes (w : World) (claimAddress : JsVal) (body : Body) :
    AllEnvelopes (daemonRequest w claimAddress body) := by
  intro frame h
  rw [mem_sent] at h
  unfold daemonRequest at h
  cases hd : w.daemon with
  | error => simp [hd] at h
  | body b =>
    rw [hd] at h
    cases b with
    | empty => simp [jsonParse] at h
    | malformed => simp [jsonParse] at h
    | json v =>
      simp only [jsonParse, List.mem_cons, reduceCtorEq, false_or] at h
      split at h
      · simp at h
      · split at h
        · simp at h
        · simp only [List.mem_singleton, Effect.send.injEq] at h
          rw [h]
          exact envelope_html _ _

theorem fetchMetadata_envelopes (w : World) (data : Json) :
    AllEnvelopes (fetchMetadata w data) := by
  unfold fetchMetadata
  simp only
  split
  · intro frame h
    simp [sent] at h
  · split
    · intro frame h
      simp [sent] at h
    · split
      · intro frame h
        simp only [sent, List.mem_singleton] at h
        rw [h]
        exact envelope_notification _
      · split
        · intro frame h
          simp only [sent, List.mem_singleton] at h
          rw [h]
          exact envelope_notification _
        · split
          · intro frame h
            rw [publish_sends w _ frame ((mem_sent _ _).1 h)]
            exact envelope_notification _
          · exact daemonRequest_envelopes w _ _

theorem subscribeCatch_envelopes (welp : Option Rejection) : AllEnvelopes (subscribeCatch welp) := by
  intro frame h
  unfold subscribeCatch at h
  split at h
  · split at h
    · simp only [sent, List.mem_singleton] at h
      rw [h]
      exact envelope_html _ _
    · simp [sent] at h
  · simp [sent] at h

theorem subscribeThen_envelopes (b : HttpBody) : AllEnvelopes (subscribeThen b) := by
  cases b with
  | empty =>
    intro frame h
    simp only [subscribeThen, sent, List.mem_singleton] at h
    rw [h]
    exact envelope_html _ _
  | malformed => exact subscribeCatch_envelopes none
  | json v =>
    unfold subscribeThen
    simp only
    split
    · intro frame h
      simp only [sent, List.mem_singleton] at h
      rw [h]
      exact envelope_html _ _
    · split
      · split
        · exact subscribeCatch_envelopes none
        · next herror =>
          intro frame h
          simp only [sent, List.mem_singleton] at h
          rw [h]
          cases hprop : prop (some v) "error" with
          | none => simp [hprop] at herror
          | some error => exact envelope_html _ _
      · intro frame h
        simp only [sent, List.mem_singleton] at h
        rw [h]
        exact envelope_html _ _

theorem newsletterSubscribe_envelopes (w : World) (data : Json) :
    AllEnvelopes (newsletterSubscribe w data) := by
  unfold newsletterSubscribe
  simp only
  split
  · intro frame h
    simp only [sent, List.mem_singleton] at h
    rw [h]
    exact envelope_html _ _
  · intro frame h
    simp only [sent] at h
    cases hsub : w.subscription with
    | resolved b =>
      rw [hsub] at h
      exact subscribeThen_envelopes b frame h
    | rejected welp =>
      rw [hsub] at h
      exact subscribeCatch_envelopes (some welp) frame h

theorem generateGitHubFeed_envelopes (w : World) (displayGitHubFeed : String → List Effect)
    (hdisplay : ∀ result, AllEnvelopes (displayGitHubFeed result)) :
    AllEnvelopes (generateGitHubFeed w displayGitHubFeed) := by
  unfold generateGitHubFeed
  split
  · intro frame h
    simp [sent] at h
  · split
    · intro frame h
      simp [sent] at h
    · split
      · intro frame h
        simp [sent] at h
      · intro frame h
        simp only [sent] at h
        exact hdisplay _ frame h

/-- C10: for every inbound message and every outcome of the collaborators,
every frame the `message` listener and its handlers send is a JSON object whose
`message` is "notification" or "updated html" and which has exactly one of the
keys `html` and `details`. -/
theorem C10_frames_are_envelopes (w : World) (data : Option Json) (frame : Json)
    (hsent : frame ∈ sent (onMessage w data)) : Envelope frame := by
  revert frame
  show AllEnvelopes (onMessage w data)
  unfold onMessage
  split
  · intro frame h
    simp [sent] at h
  · split
    · intro frame h
      simp [sent] at h
    · split
      · exact fetchMetadata_envelopes w _
      · split
        · apply generateGitHubFeed_envelopes
          intro result frame h
          simp only [sent, List.mem_singleton] at h
          rw [h]
          exact envelope_html _ _
        · split
          · exact newsletterSubscribe_envelopes w _
          · intro frame h
            simp [sent] at h

/-- C10 at the message `requestSubscribe`: the frame sent is an envelope. -/
theorem C10_frames_are_envelopes_witness :
    Envelope (.obj [("html", .str "Thank you! Please confirm subscription in your inbox."),
      ("message", .str "updated html"), ("selector", .str "#emailMessage")]) :=
  C10_frames_are_envelopes sampleWorld (some requestSubscribe) _ (by
    show _ ∈ sent (onMessage sampleWorld (some requestSubscribe))
    rw [show sent (onMessage sampleWorld (some requestSubscribe)) =
      [.obj [("html", .str "Thank you! Please confirm subscription in your inbox."),
        ("message", .str "updated html"), ("selector", .str "#emailMessage")]] from rfl]
    exact List.mem_singleton_self _)

end LbryTech
